import Mathlib

/-!
# Verification of the Newman SMTP mailer core (`src/main.cpp`)

This file gives a shallow embedding of the core logic of the Newman
program: the header/body splitter driven by `ReadEmail`, the transport
configuration extraction performed at the start of `ConnectToServer`,
the bounded future wait `AwaitFuture` / `WaitForClientReadyToSend`, and
the send orchestration in `main`.  External collaborator libraries
(MessageHeaders, the SMTP client transport) are modelled from the
contracts given in the specification, since their code is not part of
this repository.
-/

namespace Newman

/-! ## Headers and the MessageHeaders collaborator contract -/

/-- A single message header: a (name, value) pair. -/
structure Header where
  name : String
  value : String
deriving DecidableEq

/-- A header name folded to lower case, character by character. -/
def lowerName (s : String) : String :=
  String.mk (s.data.map Char.toLower)

/-- Case-insensitive header-name comparison, as used by the
MessageHeaders collaborator for lookup and removal. -/
def headerNameMatches (a b : String) : Bool :=
  lowerName a == lowerName b

/-- Modelled from the spec: `MessageHeaders::GetHeaderValue` —
case-insensitive lookup returning the first matching header's value,
and the empty string when the header is absent. -/
def getHeaderValue (hs : List Header) (name : String) : String :=
  match hs.find? (fun h => headerNameMatches h.name name) with
  | some h => h.value
  | none => ""

/-- Modelled from the spec: `MessageHeaders::RemoveHeader` — removes
all occurrences of the named header (case-insensitive), preserving the
order of the remaining headers. -/
def removeHeader (hs : List Header) (name : String) : List Header :=
  hs.filter (fun h => ! headerNameMatches h.name name)

/-- Number of headers in a list whose name matches `name`
case-insensitively. -/
def countHeader (hs : List Header) (name : String) : Nat :=
  hs.countP (fun h => headerNameMatches h.name name)

/-! ## Port parsing (`sscanf` with `%SCNu16` in `ConnectToServer`) -/

/-- Numeric value of a list of decimal digit characters. -/
def decDigitsValue (ds : List Char) : Nat :=
  ds.foldl (fun acc c => acc * 10 + (c.toNat - 48)) 0

/-- C whitespace, as skipped by `sscanf` numeric conversions. -/
def isScanWhitespace (c : Char) : Bool :=
  c == ' ' || c == '\t' || c == '\n' || c == '\r' || c == '\x0b' || c == '\x0c'

/-- Modelled from the C library: `sscanf(s, "%" SCNu16, &out)` applied
to a variable initialized to 0, for non-negative decimal inputs:
leading whitespace is skipped, an optional plus sign is accepted, the
following decimal digits give the value truncated to 16 bits, and if no
digits are present the output keeps its initialized value 0. -/
def parsePortNumber (s : String) : Nat :=
  let cs := s.toList.dropWhile isScanWhitespace
  let cs := match cs with
    | '+' :: rest => rest
    | _ => cs
  let ds := cs.takeWhile Char.isDigit
  if ds.isEmpty then 0 else decDigitsValue ds % 65536

/-! ## Transport configuration extraction (`ConnectToServer`, first half) -/

/-- The connection parameters extracted from the reserved headers. -/
structure TransportConfig where
  serverHostName : String
  serverPortNumber : Nat
  username : String
  password : String
deriving DecidableEq

/-- The transport-configuration extraction step performed at the start
of `ConnectToServer`: for each reserved key in turn, read the value of
the first occurrence and remove all occurrences, then parse the port
string; returns the configuration together with the sanitized header
list. -/
def extractTransportConfig (hs : List Header) : TransportConfig × List Header :=
  let serverHostName := getHeaderValue hs "X-SMTP-Server-Hostname"
  let hs1 := removeHeader hs "X-SMTP-Server-Hostname"
  let serverPortNumberAsString := getHeaderValue hs1 "X-SMTP-Port"
  let hs2 := removeHeader hs1 "X-SMTP-Port"
  let username := getHeaderValue hs2 "X-SMTP-Username"
  let hs3 := removeHeader hs2 "X-SMTP-Username"
  let password := getHeaderValue hs3 "X-SMTP-Password"
  let hs4 := removeHeader hs3 "X-SMTP-Password"
  let serverPortNumber := parsePortNumber serverPortNumberAsString
  (⟨serverHostName, serverPortNumber, username, password⟩, hs4)

/-- A header name is reserved when it matches one of the four keys that
`ConnectToServer` extracts and removes. -/
def isReservedName (n : String) : Bool :=
  headerNameMatches n "X-SMTP-Server-Hostname" ||
  headerNameMatches n "X-SMTP-Port" ||
  headerNameMatches n "X-SMTP-Username" ||
  headerNameMatches n "X-SMTP-Password"

/-! ## The `ReadEmail` header/body splitter

`ReadEmail` reads the input file with `std::getline`, appends `"\r\n"`
to each line, and feeds the result either to the incremental header
parser (while headers are incomplete) or to the body.  Byte strings are
modelled as `List Char`.  The collaborator parser
`MessageHeaders::ParseRawMessage` is kept abstract: the reader loop is
parametric in a parse function returning the updated parser state, the
number of bytes consumed, and a completion state. -/

/-- Completion state reported by the incremental header parser
(`MessageHeaders::MessageHeaders::State`). -/
inductive ParseState where
  | Incomplete
  | Complete
  | Error
deriving DecidableEq

/-- The carriage-return/line-feed pair appended to every line read. -/
def crlf : List Char := ['\r', '\n']

/-- `line + "\r\n"` as computed for `lineWithNewLine` in `ReadEmail`. -/
def lineWithNewLine (line : List Char) : List Char :=
  line ++ crlf

/-- The lines produced by repeated `std::getline` on a byte stream:
lines are separated by `'\n'` (a preceding `'\r'` is not stripped by
the reader itself), a final segment without a terminating `'\n'` is
still delivered as a line, and reaching end of input with nothing to
read produces no further line. -/
def getLines : List Char → List (List Char)
  | [] => []
  | c :: rest =>
      if c = '\n' then
        [] :: (match rest with
               | [] => []
               | _ :: _ => getLines rest)
      else
        match getLines rest with
        | [] => [[c]]
        | l :: ls => (c :: l) :: ls

/-- The evolving state of the `ReadEmail` loop: the e-mail built so
far (parser state plus body), the unconsumed parse buffer, and the
`headersComplete` flag. -/
structure ReaderState (H : Type) where
  headers : H
  body : List Char
  buffer : List Char
  headersComplete : Bool

/-- One iteration of the `ReadEmail` loop on a single line: append
`"\r\n"`; if headers are complete, append the result to the body;
otherwise extend the buffer, run the incremental parser, drop the
consumed prefix, and on `Complete` mark headers complete and start the
body with the unconsumed remainder. -/
def feedLine {H : Type} (parse : H → List Char → H × Nat × ParseState)
    (s : ReaderState H) (line : List Char) : ReaderState H :=
  let lwn := lineWithNewLine line
  if s.headersComplete then
    { s with body := s.body ++ lwn }
  else
    let buffer := s.buffer ++ lwn
    let (headers, bytesConsumed, response) := parse s.headers buffer
    let buffer := if bytesConsumed = buffer.length then [] else buffer.drop bytesConsumed
    if response = ParseState.Complete then
      { headers := headers, body := buffer, buffer := buffer, headersComplete := true }
    else
      { headers := headers, body := s.body, buffer := buffer, headersComplete := false }

/-- The whole `ReadEmail` loop over a list of input lines. -/
def readEmailLoop {H : Type} (parse : H → List Char → H × Nat × ParseState)
    (s : ReaderState H) (lines : List (List Char)) : ReaderState H :=
  lines.foldl (feedLine parse) s

/-- Helper for `modelParse`: scan the buffer character by character,
accumulating the current line in `cur`; a line is complete at each
`'\n'`.  Returns the raw header lines gathered, the number of bytes
consumed (whole lines only), and the completion state. -/
def modelParseAux (hs : List (List Char)) (cur : List Char) :
    List Char → List (List Char) × Nat × ParseState
  | [] => (hs, 0, ParseState.Incomplete)
  | c :: rest =>
      if c = '\n' then
        let line := cur ++ ['\n']
        if line = crlf then
          (hs, line.length, ParseState.Complete)
        else
          let r := modelParseAux (hs ++ [line]) [] rest
          (r.1, line.length + r.2.1, r.2.2)
      else
        modelParseAux hs (cur ++ [c]) rest

/-- Modelled from the spec: the collaborator header parser
`MessageHeaders::ParseRawMessage` consumes complete CRLF-terminated
lines from the front of the buffer, accumulating each non-empty line as
a raw header line; an empty line (a bare CRLF) terminates the header
block, consuming through the terminator and reporting `Complete`;
trailing bytes that do not form a complete line are left unconsumed. -/
def modelParse (hs : List (List Char)) (buf : List Char) :
    List (List Char) × Nat × ParseState :=
  modelParseAux hs [] buf

/-- The initial state of the `ReadEmail` loop: empty body, empty
buffer, headers not complete. -/
def initReaderState {H : Type} (h0 : H) : ReaderState H :=
  { headers := h0, body := [], buffer := [], headersComplete := false }

/-- `ReadEmail` on a whole byte stream, instantiated with the modelled
collaborator parser. -/
def readEmail (input : List Char) : ReaderState (List (List Char)) :=
  readEmailLoop modelParse (initReaderState []) (getLines input)

/-! ## Futures and the send orchestration in `main`

A `std::future<bool>` is modelled by the time (in milliseconds from
the start of the wait) at which it resolves — `none` when it never
resolves — together with the boolean it resolves to.  `AwaitFuture`
waits up to 5000 milliseconds. -/

/-- A pending boolean result from the transport. -/
structure Pending where
  resolvesAt : Option Nat
  value : Bool
deriving DecidableEq

/-- Result of waiting on a future (`WaitResult` in `main.cpp`). -/
inductive WaitResult where
  | Success
  | Failure
  | Incomplete
deriving DecidableEq

/-- The fixed bound passed to `future.wait_for` in `AwaitFuture`:
5000 milliseconds. -/
def waitBoundMs : Nat := 5000

/-- `future.wait_for(ms)` reports ready exactly when the future
resolves within the given number of milliseconds. -/
def resolvesWithin (p : Pending) (ms : Nat) : Bool :=
  match p.resolvesAt with
  | some t => t ≤ ms
  | none => false

/-- `AwaitFuture`: wait up to 5000 ms; `Incomplete` when the future is
not ready by then, otherwise `Success`/`Failure` from the resolved
boolean. -/
def AwaitFuture (p : Pending) : WaitResult :=
  if resolvesWithin p waitBoundMs then
    if p.value then WaitResult.Success else WaitResult.Failure
  else
    WaitResult.Incomplete

/-- Diagnostic levels used by the program: 3 is informational progress,
`WARNING` marks failures. -/
inductive Level where
  | info
  | warning
  | error
deriving DecidableEq

/-- A diagnostic message published through the diagnostics delegate. -/
structure Event where
  level : Level
  message : String
deriving DecidableEq

/-- `WaitForClientReadyToSend`: await the ready-or-broken future;
`Failure` and `Incomplete` each publish one warning and return false,
anything else returns true. -/
def WaitForClientReadyToSend (readyOrBroken : Pending) : Bool × List Event :=
  match AwaitFuture readyOrBroken with
  | WaitResult.Failure =>
      (false, [⟨Level.warning, "There was a problem setting up to send the e-mail!"⟩])
  | WaitResult.Incomplete =>
      (false, [⟨Level.warning, "Timeout waiting to set up to send the e-mail!"⟩])
  | _ => (true, [])

/-- An e-mail as read by `ReadEmail`: completed headers and a body. -/
structure Email where
  headers : List Header
  body : String
deriving DecidableEq

/-- The behavior of the external transport during one run: the value
the connect future resolves to (awaited with a plain blocking `get`),
the combined ready-or-broken future, and the send-completed future. -/
structure TransportBehavior where
  connectResult : Bool
  readyOrBroken : Pending
  sendCompleted : Pending

/-- The observable outcome of one orchestration run: the diagnostics
published by Newman in order, the process exit code (0 = success, 1 =
`EXIT_FAILURE`), the transport/auth calls made in order, and the
arguments of the `SendMail` call when it was made. -/
structure RunResult where
  events : List Event
  exitCode : Nat
  calls : List String
  sendCall : Option (List Header × String)
deriving DecidableEq

/-- `ConnectToServer` (after the extraction refactored into
`extractTransportConfig`): publish the connecting diagnostic, extract
the transport configuration and strip the reserved headers, hand the
credentials to the authentication collaborator, start the connect and
block on its result.  Returns the connect result, the mutated e-mail,
the diagnostics published, and the collaborator calls made. -/
def ConnectToServer (b : TransportBehavior) (email : Email) :
    Bool × Email × List Event × List String :=
  let events := [⟨Level.info, "Connecting to SMTP server."⟩]
  let (_config, hs) := extractTransportConfig email.headers
  let calls := ["setCredentials", "connect"]
  (b.connectResult, ⟨hs, email.body⟩, events, calls)

/-- The orchestration in `main` after command-line processing and
client setup: request the ready-or-broken future, connect (stripping
the reserved headers), wait for readiness, send, and wait for the send
result, publishing one diagnostic per step and stopping with
`EXIT_FAILURE` at the first failure. -/
def runNewman (b : TransportBehavior) (email : Email) : RunResult :=
  let calls := ["getReadyOrBrokenFuture"]
  let (connectSuccess, email, connectEvents, connectCalls) := ConnectToServer b email
  let events := connectEvents
  let calls := calls ++ connectCalls
  if connectSuccess then
    let events := events ++ [⟨Level.info, "Connected to SMTP server."⟩,
                             ⟨Level.info, "Preparing to send e-mail..."⟩]
    let (ready, readyEvents) := WaitForClientReadyToSend b.readyOrBroken
    let events := events ++ readyEvents
    if ready then
      let events := events ++ [⟨Level.info, "Sending e-mail."⟩]
      let calls := calls ++ ["sendMail"]
      let sendCall := some (email.headers, email.body)
      let events := events ++ [⟨Level.info, "Waiting for e-mail to be sent..."⟩]
      match AwaitFuture b.sendCompleted with
      | WaitResult.Failure =>
          ⟨events ++ [⟨Level.warning, "There was a problem sending the e-mail!"⟩],
           1, calls, sendCall⟩
      | WaitResult.Incomplete =>
          ⟨events ++ [⟨Level.warning, "Timeout waiting for server to accept the e-mail!"⟩],
           1, calls, sendCall⟩
      | WaitResult.Success =>
          ⟨events ++ [⟨Level.info, "E-mail successfully sent."⟩, ⟨Level.info, "Exiting..."⟩],
           0, calls, sendCall⟩
    else
      ⟨events, 1, calls, none⟩
  else
    ⟨events ++ [⟨Level.warning, "There was a problem connecting to the SMTP server!"⟩],
     1, calls, none⟩

/-- The warning-level diagnostics of a run, in order. -/
def warningsOf (r : RunResult) : List Event :=
  r.events.filter (fun e => e.level == Level.warning)

/-- The informational diagnostics of a run, in order. -/
def infosOf (r : RunResult) : List Event :=
  r.events.filter (fun e => e.level == Level.info)

/-! ## Specification-side model for the wait-until-ready step

The specification describes a two-signal variant of the wait-until-ready
step; it is stated here in its own words so it can be compared with the
code's single combined signal. -/

/-- Outcome of the specification's wait-until-ready step. -/
inductive ReadyOutcome where
  | Proceed
  | SetupFailure
  | SetupTimeout
deriving DecidableEq

/-- Modelled from the spec: the claimed two-signal wait-until-ready
step — wait up to 5000 ms for the ready signal; if it resolves within
the bound, proceed; otherwise perform a non-blocking check of the
separate failure signal: already resolved means `SetupFailure`, else
`SetupTimeout`. -/
def specAwaitReadyTwoSignals (ready failureSignal : Pending) : ReadyOutcome :=
  if resolvesWithin ready waitBoundMs then
    ReadyOutcome.Proceed
  else if resolvesWithin failureSignal waitBoundMs then
    ReadyOutcome.SetupFailure
  else
    ReadyOutcome.SetupTimeout

/-! ## Lemmas about the header collaborator model -/

theorem headerNameMatches_iff {a b : String} :
    headerNameMatches a b = true ↔ lowerName a = lowerName b := by
  simp [headerNameMatches]

theorem getHeaderValue_cons_of_no_match {h : Header} {hs : List Header} {k : String}
    (hm : headerNameMatches h.name k = false) :
    getHeaderValue (h :: hs) k = getHeaderValue hs k := by
  simp [getHeaderValue, List.find?_cons, hm]

theorem removeHeader_cons_of_no_match {h : Header} {hs : List Header} {k : String}
    (hm : headerNameMatches h.name k = false) :
    removeHeader (h :: hs) k = h :: removeHeader hs k := by
  simp [removeHeader, List.filter_cons, hm]

/-- Removing one header name does not change the first-match lookup of a
different name. -/
theorem getHeaderValue_removeHeader (hs : List Header) {a b : String}
    (hab : lowerName a ≠ lowerName b) :
    getHeaderValue (removeHeader hs b) a = getHeaderValue hs a := by
  induction hs with
  | nil => rfl
  | cons h t ih =>
      by_cases hmb : headerNameMatches h.name b = true
      · have hma : headerNameMatches h.name a = false := by
          rcases hma : headerNameMatches h.name a with _ | _
          · rfl
          · exact absurd (headerNameMatches_iff.mp hma ▸ headerNameMatches_iff.mp hmb) hab
        rw [getHeaderValue_cons_of_no_match hma]
        rw [show removeHeader (h :: t) b = removeHeader t b by
              simp [removeHeader, List.filter_cons, hmb]]
        exact ih
      · rw [removeHeader_cons_of_no_match (Bool.of_not_eq_true hmb)]
        by_cases hma : headerNameMatches h.name a = true
        · simp [getHeaderValue, List.find?_cons, hma]
        · rw [getHeaderValue_cons_of_no_match (Bool.of_not_eq_true hma),
              getHeaderValue_cons_of_no_match (Bool.of_not_eq_true hma)]
          exact ih

theorem getHeaderValue_eq_empty {hs : List Header} {k : String}
    (h : ∀ x ∈ hs, headerNameMatches x.name k = false) :
    getHeaderValue hs k = "" := by
  have : hs.find? (fun x => headerNameMatches x.name k) = none :=
    List.find?_eq_none.mpr (by intro x hx; simp [h x hx])
  simp [getHeaderValue, this]

theorem removeHeader_eq_self {hs : List Header} {k : String}
    (h : ∀ x ∈ hs, headerNameMatches x.name k = false) :
    removeHeader hs k = hs :=
  List.filter_eq_self.mpr (by intro x hx; simp [h x hx])

/-- The sanitized header list produced by extraction is exactly the
original list with the reserved headers filtered out. -/
theorem extract_snd_eq_filter (hs : List Header) :
    (extractTransportConfig hs).2 = hs.filter (fun h => ! isReservedName h.name) := by
  simp only [extractTransportConfig, removeHeader, List.filter_filter]
  apply List.filter_congr
  intro h _
  simp only [isReservedName, Bool.not_or]
  cases headerNameMatches h.name "X-SMTP-Server-Hostname" <;>
    cases headerNameMatches h.name "X-SMTP-Port" <;>
    cases headerNameMatches h.name "X-SMTP-Username" <;>
    cases headerNameMatches h.name "X-SMTP-Password" <;> rfl

/-- Each extracted configuration field is the first-occurrence value of
its reserved key in the original header list. -/
theorem extract_fst_eq (hs : List Header) :
    (extractTransportConfig hs).1 =
      ⟨getHeaderValue hs "X-SMTP-Server-Hostname",
       parsePortNumber (getHeaderValue hs "X-SMTP-Port"),
       getHeaderValue hs "X-SMTP-Username",
       getHeaderValue hs "X-SMTP-Password"⟩ := by
  simp only [extractTransportConfig]
  refine TransportConfig.mk.injEq .. ▸ ⟨rfl, ?_, ?_, ?_⟩
  · rw [getHeaderValue_removeHeader _ (by decide)]
  · rw [getHeaderValue_removeHeader _ (by decide),
        getHeaderValue_removeHeader _ (by decide)]
  · rw [getHeaderValue_removeHeader _ (by decide),
        getHeaderValue_removeHeader _ (by decide),
        getHeaderValue_removeHeader _ (by decide)]

/-- A name matching any single reserved key is reserved. -/
theorem isReserved_of_match {n k : String}
    (hk : k = "X-SMTP-Server-Hostname" ∨ k = "X-SMTP-Port" ∨
          k = "X-SMTP-Username" ∨ k = "X-SMTP-Password")
    (hm : headerNameMatches n k = true) : isReservedName n = true := by
  rcases hk with rfl | rfl | rfl | rfl <;> simp [isReservedName, hm]

/-- If no header in the list is reserved, extraction finds nothing:
it returns the empty/zero configuration and leaves the list intact. -/
theorem extract_of_no_reserved {hs : List Header}
    (h : ∀ x ∈ hs, isReservedName x.name = false) :
    extractTransportConfig hs = (⟨"", 0, "", ""⟩, hs) := by
  have hkey : ∀ k, (k = "X-SMTP-Server-Hostname" ∨ k = "X-SMTP-Port" ∨
      k = "X-SMTP-Username" ∨ k = "X-SMTP-Password") →
      ∀ x ∈ hs, headerNameMatches x.name k = false := by
    intro k hk x hx
    rcases hm : headerNameMatches x.name k with _ | _
    · rfl
    · exact absurd (isReserved_of_match hk hm) (by simp [h x hx])
  have h1 := hkey "X-SMTP-Server-Hostname" (by tauto)
  have h2 := hkey "X-SMTP-Port" (by tauto)
  have h3 := hkey "X-SMTP-Username" (by tauto)
  have h4 := hkey "X-SMTP-Password" (by tauto)
  simp only [extractTransportConfig,
    getHeaderValue_eq_empty h1, removeHeader_eq_self h1,
    getHeaderValue_eq_empty h2, removeHeader_eq_self h2,
    getHeaderValue_eq_empty h3, removeHeader_eq_self h3,
    getHeaderValue_eq_empty h4, removeHeader_eq_self h4]
  rfl

/-- Extraction commutes with prepending a non-reserved header: the
configuration is unchanged and the header survives in place. -/
theorem extract_cons_unreserved {h : Header} (hs : List Header)
    (hr : isReservedName h.name = false) :
    extractTransportConfig (h :: hs) =
      ((extractTransportConfig hs).1, h :: (extractTransportConfig hs).2) := by
  have hm : ∀ k, (k = "X-SMTP-Server-Hostname" ∨ k = "X-SMTP-Port" ∨
      k = "X-SMTP-Username" ∨ k = "X-SMTP-Password") →
      headerNameMatches h.name k = false := by
    intro k hk
    rcases hmk : headerNameMatches h.name k with _ | _
    · rfl
    · exact absurd (isReserved_of_match hk hmk) (by simp [hr])
  apply Prod.ext
  · rw [extract_fst_eq, extract_fst_eq,
        getHeaderValue_cons_of_no_match (hm _ (by tauto)),
        getHeaderValue_cons_of_no_match (hm _ (by tauto)),
        getHeaderValue_cons_of_no_match (hm _ (by tauto)),
        getHeaderValue_cons_of_no_match (hm _ (by tauto))]
  · rw [extract_snd_eq_filter, extract_snd_eq_filter, List.filter_cons]
    simp [hr]

/-- C1: For every Email with completed headers, the
transport-configuration extraction step removes all occurrences of the
reserved headers X-SMTP-Server-Hostname, X-SMTP-Port, X-SMTP-Username
and X-SMTP-Password (lookup case-insensitive), uses the value of the
first occurrence of each key when duplicates exist, and leaves every
other header unmodified and in its original order; in particular a
header list containing occurrences of X-SMTP-Username contains zero
occurrences after extraction. -/
theorem extraction_removes_reserved_headers (hs : List Header) :
    (extractTransportConfig hs).2 = hs.filter (fun h => ! isReservedName h.name)
    ∧ (extractTransportConfig hs).1 =
        ⟨getHeaderValue hs "X-SMTP-Server-Hostname",
         parsePortNumber (getHeaderValue hs "X-SMTP-Port"),
         getHeaderValue hs "X-SMTP-Username",
         getHeaderValue hs "X-SMTP-Password"⟩
    ∧ countHeader (extractTransportConfig hs).2 "X-SMTP-Username" = 0 := by
  refine ⟨extract_snd_eq_filter hs, extract_fst_eq hs, ?_⟩
  rw [extract_snd_eq_filter]
  apply List.countP_eq_zero.mpr
  intro h hh
  have hne := List.of_mem_filter hh
  intro hmm
  have : isReservedName h.name = true := isReserved_of_match (by tauto) hmm
  simp [this] at hne

/-! ## Branch equations for the orchestration run -/

theorem runNewman_connect_false {b : TransportBehavior} {e : Email}
    (hc : b.connectResult = false) :
    runNewman b e =
      ⟨[⟨Level.info, "Connecting to SMTP server."⟩,
        ⟨Level.warning, "There was a problem connecting to the SMTP server!"⟩],
       1, ["getReadyOrBrokenFuture", "setCredentials", "connect"], none⟩ := by
  simp [runNewman, ConnectToServer, hc]

theorem runNewman_ready_failure {b : TransportBehavior} {e : Email}
    (hc : b.connectResult = true)
    (hr : AwaitFuture b.readyOrBroken = WaitResult.Failure) :
    runNewman b e =
      ⟨[⟨Level.info, "Connecting to SMTP server."⟩,
        ⟨Level.info, "Connected to SMTP server."⟩,
        ⟨Level.info, "Preparing to send e-mail..."⟩,
        ⟨Level.warning, "There was a problem setting up to send the e-mail!"⟩],
       1, ["getReadyOrBrokenFuture", "setCredentials", "connect"], none⟩ := by
  simp [runNewman, ConnectToServer, WaitForClientReadyToSend, hc, hr]

theorem runNewman_ready_incomplete {b : TransportBehavior} {e : Email}
    (hc : b.connectResult = true)
    (hr : AwaitFuture b.readyOrBroken = WaitResult.Incomplete) :
    runNewman b e =
      ⟨[⟨Level.info, "Connecting to SMTP server."⟩,
        ⟨Level.info, "Connected to SMTP server."⟩,
        ⟨Level.info, "Preparing to send e-mail..."⟩,
        ⟨Level.warning, "Timeout waiting to set up to send the e-mail!"⟩],
       1, ["getReadyOrBrokenFuture", "setCredentials", "connect"], none⟩ := by
  simp [runNewman, ConnectToServer, WaitForClientReadyToSend, hc, hr]

theorem runNewman_send_success {b : TransportBehavior} {e : Email}
    (hc : b.connectResult = true)
    (hr : AwaitFuture b.readyOrBroken = WaitResult.Success)
    (hs : AwaitFuture b.sendCompleted = WaitResult.Success) :
    runNewman b e =
      ⟨[⟨Level.info, "Connecting to SMTP server."⟩,
        ⟨Level.info, "Connected to SMTP server."⟩,
        ⟨Level.info, "Preparing to send e-mail..."⟩,
        ⟨Level.info, "Sending e-mail."⟩,
        ⟨Level.info, "Waiting for e-mail to be sent..."⟩,
        ⟨Level.info, "E-mail successfully sent."⟩,
        ⟨Level.info, "Exiting..."⟩],
       0, ["getReadyOrBrokenFuture", "setCredentials", "connect", "sendMail"],
       some ((extractTransportConfig e.headers).2, e.body)⟩ := by
  simp [runNewman, ConnectToServer, WaitForClientReadyToSend, hc, hr, hs]

theorem runNewman_send_failure {b : TransportBehavior} {e : Email}
    (hc : b.connectResult = true)
    (hr : AwaitFuture b.readyOrBroken = WaitResult.Success)
    (hs : AwaitFuture b.sendCompleted = WaitResult.Failure) :
    runNewman b e =
      ⟨[⟨Level.info, "Connecting to SMTP server."⟩,
        ⟨Level.info, "Connected to SMTP server."⟩,
        ⟨Level.info, "Preparing to send e-mail..."⟩,
        ⟨Level.info, "Sending e-mail."⟩,
        ⟨Level.info, "Waiting for e-mail to be sent..."⟩,
        ⟨Level.warning, "There was a problem sending the e-mail!"⟩],
       1, ["getReadyOrBrokenFuture", "setCredentials", "connect", "sendMail"],
       some ((extractTransportConfig e.headers).2, e.body)⟩ := by
  simp [runNewman, ConnectToServer, WaitForClientReadyToSend, hc, hr, hs]

theorem runNewman_send_incomplete {b : TransportBehavior} {e : Email}
    (hc : b.connectResult = true)
    (hr : AwaitFuture b.readyOrBroken = WaitResult.Success)
    (hs : AwaitFuture b.sendCompleted = WaitResult.Incomplete) :
    runNewman b e =
      ⟨[⟨Level.info, "Connecting to SMTP server."⟩,
        ⟨Level.info, "Connected to SMTP server."⟩,
        ⟨Level.info, "Preparing to send e-mail..."⟩,
        ⟨Level.info, "Sending e-mail."⟩,
        ⟨Level.info, "Waiting for e-mail to be sent..."⟩,
        ⟨Level.warning, "Timeout waiting for server to accept the e-mail!"⟩],
       1, ["getReadyOrBrokenFuture", "setCredentials", "connect", "sendMail"],
       some ((extractTransportConfig e.headers).2, e.body)⟩ := by
  simp [runNewman, ConnectToServer, WaitForClientReadyToSend, hc, hr, hs]

/-- C6: Port header parsing is a pure function of the X-SMTP-Port
header value: the value "587" yields port 587, the value "abc" or an
absent header yields port 0, the port value being interpreted as an
unsigned 16-bit decimal integer with 0 as the parse-failure default. -/
theorem port_parsing_pure (hs : List Header) :
    (extractTransportConfig hs).1.serverPortNumber =
      parsePortNumber (getHeaderValue hs "X-SMTP-Port")
    ∧ parsePortNumber "587" = 587
    ∧ parsePortNumber "abc" = 0
    ∧ parsePortNumber "" = 0
    ∧ (∀ s, parsePortNumber s < 65536)
    ∧ ((∀ x ∈ hs, headerNameMatches x.name "X-SMTP-Port" = false) →
        (extractTransportConfig hs).1.serverPortNumber = 0) := by
  refine ⟨by rw [extract_fst_eq], by decide, by decide, by decide, ?_, ?_⟩
  · intro s
    simp only [parsePortNumber]
    split
    · omega
    · exact Nat.mod_lt _ (by omega)
  · intro habsent
    rw [extract_fst_eq]
    show parsePortNumber (getHeaderValue hs "X-SMTP-Port") = 0
    rw [getHeaderValue_eq_empty habsent]
    decide

/-- C6 witness: concrete evaluations, including a header list without
any X-SMTP-Port header yielding port 0. -/
theorem port_parsing_pure_witness :
    (extractTransportConfig [⟨"Subject", "hi"⟩]).1.serverPortNumber = 0
    ∧ parsePortNumber "587" = 587
    ∧ parsePortNumber "abc" = 0
    ∧ parsePortNumber "9999999" < 65536 :=
  ⟨(port_parsing_pure [⟨"Subject", "hi"⟩]).2.2.2.2.2 (by decide),
   (port_parsing_pure []).2.1,
   (port_parsing_pure []).2.2.1,
   (port_parsing_pure []).2.2.2.2.1 "9999999"⟩

/-- C9: Transport-configuration extraction is idempotent: a second
extraction from the sanitized Email finds no reserved headers, returns
an empty hostname, empty username, empty password and port 0, and
leaves the sanitized headers exactly as the first extraction left
them. -/
theorem extraction_idempotent (hs : List Header) :
    (extractTransportConfig (extractTransportConfig hs).2).1 = ⟨"", 0, "", ""⟩
    ∧ (extractTransportConfig (extractTransportConfig hs).2).2 =
        (extractTransportConfig hs).2 := by
  have hno : ∀ x ∈ (extractTransportConfig hs).2, isReservedName x.name = false := by
    rw [extract_snd_eq_filter]
    intro x hx
    have := List.of_mem_filter hx
    simpa using this
  rw [extract_of_no_reserved hno]
  exact ⟨rfl, rfl⟩

/-- C10: extraction looks up and removes only the four reserved keys;
an X-SMTP-Client-Hostname header is never read or removed, so it
remains in the sanitized header set, which is exactly what the send
operation receives. -/
theorem client_hostname_passed_through (hs : List Header) (h : Header)
    (b : TransportBehavior) (email : Email) :
    (headerNameMatches h.name "X-SMTP-Client-Hostname" = true →
        isReservedName h.name = false
        ∧ extractTransportConfig (h :: hs) =
            ((extractTransportConfig hs).1, h :: (extractTransportConfig hs).2))
    ∧ (b.connectResult = true →
       AwaitFuture b.readyOrBroken = WaitResult.Success →
       AwaitFuture b.sendCompleted = WaitResult.Success →
        (runNewman b email).sendCall =
          some ((extractTransportConfig email.headers).2, email.body)) := by
  constructor
  · intro hm
    have hl : lowerName h.name = lowerName "X-SMTP-Client-Hostname" :=
      headerNameMatches_iff.mp hm
    have hdiff : ∀ k : String, lowerName "X-SMTP-Client-Hostname" ≠ lowerName k →
        headerNameMatches h.name k = false := by
      intro k hk
      rcases hmk : headerNameMatches h.name k with _ | _
      · rfl
      · exact absurd (hl ▸ headerNameMatches_iff.mp hmk) hk
    have hr : isReservedName h.name = false := by
      simp only [isReservedName, Bool.or_eq_false_iff]
      exact ⟨⟨⟨hdiff _ (by decide), hdiff _ (by decide)⟩, hdiff _ (by decide)⟩,
             hdiff _ (by decide)⟩
    exact ⟨hr, extract_cons_unreserved hs hr⟩
  · intro hc hready hsend
    rw [runNewman_send_success hc hready hsend]

/-- C10 witness: a concrete run in which an X-SMTP-Client-Hostname
header survives extraction and is handed to the send operation. -/
theorem client_hostname_passed_through_witness :
    (isReservedName "X-SMTP-Client-Hostname" = false
      ∧ extractTransportConfig [⟨"X-SMTP-Client-Hostname", "me"⟩, ⟨"Subject", "hi"⟩] =
          ((extractTransportConfig [⟨"Subject", "hi"⟩]).1,
           ⟨"X-SMTP-Client-Hostname", "me"⟩ ::
             (extractTransportConfig [⟨"Subject", "hi"⟩]).2))
    ∧ (runNewman ⟨true, ⟨some 0, true⟩, ⟨some 0, true⟩⟩
        ⟨[⟨"X-SMTP-Client-Hostname", "me"⟩, ⟨"Subject", "hi"⟩], "hello"⟩).sendCall =
        some ((extractTransportConfig
                [⟨"X-SMTP-Client-Hostname", "me"⟩, ⟨"Subject", "hi"⟩]).2, "hello") :=
  ⟨(client_hostname_passed_through [⟨"Subject", "hi"⟩] ⟨"X-SMTP-Client-Hostname", "me"⟩
      ⟨true, ⟨some 0, true⟩, ⟨some 0, true⟩⟩
      ⟨[⟨"X-SMTP-Client-Hostname", "me"⟩, ⟨"Subject", "hi"⟩], "hello"⟩).1 (by decide),
   (client_hostname_passed_through [⟨"Subject", "hi"⟩] ⟨"X-SMTP-Client-Hostname", "me"⟩
      ⟨true, ⟨some 0, true⟩, ⟨some 0, true⟩⟩
      ⟨[⟨"X-SMTP-Client-Hostname", "me"⟩, ⟨"Subject", "hi"⟩], "hello"⟩).2
      (by decide) (by decide) (by decide)⟩

/-- C5: If the transport's connect operation resolves false, the
process emits exactly one warning-level diagnostic mentioning a
connection problem, exits with a failure code, and the Sending state is
never entered (the send operation is never invoked); no retry or
partial recovery occurs after this first failure. -/
theorem connect_failure_terminal (b : TransportBehavior) (e : Email)
    (hc : b.connectResult = false) :
    (runNewman b e).exitCode = 1
    ∧ warningsOf (runNewman b e) =
        [⟨Level.warning, "There was a problem connecting to the SMTP server!"⟩]
    ∧ (runNewman b e).sendCall = none
    ∧ "sendMail" ∉ (runNewman b e).calls := by
  rw [runNewman_connect_false hc]
  refine ⟨rfl, by decide, rfl, by decide⟩

/-- C5 witness: a concrete failing connect. -/
theorem connect_failure_terminal_witness :
    (runNewman ⟨false, ⟨none, false⟩, ⟨none, false⟩⟩ ⟨[], ""⟩).exitCode = 1
    ∧ warningsOf (runNewman ⟨false, ⟨none, false⟩, ⟨none, false⟩⟩ ⟨[], ""⟩) =
        [⟨Level.warning, "There was a problem connecting to the SMTP server!"⟩]
    ∧ (runNewman ⟨false, ⟨none, false⟩, ⟨none, false⟩⟩ ⟨[], ""⟩).sendCall = none
    ∧ "sendMail" ∉ (runNewman ⟨false, ⟨none, false⟩, ⟨none, false⟩⟩ ⟨[], ""⟩).calls :=
  connect_failure_terminal ⟨false, ⟨none, false⟩, ⟨none, false⟩⟩ ⟨[], ""⟩ rfl

/-- C4: The send step waits at most 5000 milliseconds on the pending
send result and maps it to exactly three outcomes: true within the
bound yields terminal success (exit code 0), false within the bound
yields one send-rejected warning and a non-zero exit, and no result
within the bound yields one send-timeout warning and a non-zero
exit. -/
theorem send_outcome_mapping (b : TransportBehavior) (e : Email)
    (hc : b.connectResult = true)
    (hr : AwaitFuture b.readyOrBroken = WaitResult.Success) :
    waitBoundMs = 5000
    ∧ (resolvesWithin b.sendCompleted 5000 = true → b.sendCompleted.value = true →
        (runNewman b e).exitCode = 0 ∧ warningsOf (runNewman b e) = [])
    ∧ (resolvesWithin b.sendCompleted 5000 = true → b.sendCompleted.value = false →
        (runNewman b e).exitCode = 1
        ∧ warningsOf (runNewman b e) =
            [⟨Level.warning, "There was a problem sending the e-mail!"⟩])
    ∧ (resolvesWithin b.sendCompleted 5000 = false →
        (runNewman b e).exitCode = 1
        ∧ warningsOf (runNewman b e) =
            [⟨Level.warning, "Timeout waiting for server to accept the e-mail!"⟩]) := by
  refine ⟨rfl, ?_, ?_, ?_⟩
  · intro h1 h2
    have hs : AwaitFuture b.sendCompleted = WaitResult.Success := by
      simp [AwaitFuture, waitBoundMs, h1, h2]
    rw [runNewman_send_success hc hr hs]
    exact ⟨rfl, rfl⟩
  · intro h1 h2
    have hs : AwaitFuture b.sendCompleted = WaitResult.Failure := by
      simp [AwaitFuture, waitBoundMs, h1, h2]
    rw [runNewman_send_failure hc hr hs]
    exact ⟨rfl, rfl⟩
  · intro h1
    have hs : AwaitFuture b.sendCompleted = WaitResult.Incomplete := by
      simp [AwaitFuture, waitBoundMs, h1]
    rw [runNewman_send_incomplete hc hr hs]
    exact ⟨rfl, rfl⟩

/-- C4 witness: a send future that resolves false at 3000 ms is
rejected with one warning, and one that resolves only at 6000 ms times
out. -/
theorem send_outcome_mapping_witness :
    ((runNewman ⟨true, ⟨some 0, true⟩, ⟨some 3000, false⟩⟩ ⟨[], ""⟩).exitCode = 1
      ∧ warningsOf (runNewman ⟨true, ⟨some 0, true⟩, ⟨some 3000, false⟩⟩ ⟨[], ""⟩) =
          [⟨Level.warning, "There was a problem sending the e-mail!"⟩])
    ∧ ((runNewman ⟨true, ⟨some 0, true⟩, ⟨some 6000, true⟩⟩ ⟨[], ""⟩).exitCode = 1
      ∧ warningsOf (runNewman ⟨true, ⟨some 0, true⟩, ⟨some 6000, true⟩⟩ ⟨[], ""⟩) =
          [⟨Level.warning, "Timeout waiting for server to accept the e-mail!"⟩]) :=
  ⟨(send_outcome_mapping ⟨true, ⟨some 0, true⟩, ⟨some 3000, false⟩⟩ ⟨[], ""⟩
      rfl (by decide)).2.2.1 (by decide) rfl,
   (send_outcome_mapping ⟨true, ⟨some 0, true⟩, ⟨some 6000, true⟩⟩ ⟨[], ""⟩
      rfl (by decide)).2.2.2 (by decide)⟩

/-- C8: On the success path the orchestrator emits exactly one
informational diagnostic per state transition, in the fixed order
connecting, connected, preparing, sending, waiting, sent, with no
transition skipped and no warning, and exits with the success code (a
final informational "Exiting..." follows the six transition
messages). -/
theorem success_path_diagnostics (b : TransportBehavior) (e : Email)
    (hc : b.connectResult = true)
    (hr : AwaitFuture b.readyOrBroken = WaitResult.Success)
    (hs : AwaitFuture b.sendCompleted = WaitResult.Success) :
    (runNewman b e).events =
      [⟨Level.info, "Connecting to SMTP server."⟩,
       ⟨Level.info, "Connected to SMTP server."⟩,
       ⟨Level.info, "Preparing to send e-mail..."⟩,
       ⟨Level.info, "Sending e-mail."⟩,
       ⟨Level.info, "Waiting for e-mail to be sent..."⟩,
       ⟨Level.info, "E-mail successfully sent."⟩,
       ⟨Level.info, "Exiting..."⟩]
    ∧ warningsOf (runNewman b e) = []
    ∧ (runNewman b e).exitCode = 0 := by
  rw [runNewman_send_success hc hr hs]
  refine ⟨rfl, rfl, rfl⟩

/-- C8 witness: a concrete all-success run. -/
theorem success_path_diagnostics_witness :
    (runNewman ⟨true, ⟨some 100, true⟩, ⟨some 200, true⟩⟩ ⟨[], "hi"⟩).events =
      [⟨Level.info, "Connecting to SMTP server."⟩,
       ⟨Level.info, "Connected to SMTP server."⟩,
       ⟨Level.info, "Preparing to send e-mail..."⟩,
       ⟨Level.info, "Sending e-mail."⟩,
       ⟨Level.info, "Waiting for e-mail to be sent..."⟩,
       ⟨Level.info, "E-mail successfully sent."⟩,
       ⟨Level.info, "Exiting..."⟩]
    ∧ warningsOf (runNewman ⟨true, ⟨some 100, true⟩, ⟨some 200, true⟩⟩ ⟨[], "hi"⟩) = []
    ∧ (runNewman ⟨true, ⟨some 100, true⟩, ⟨some 200, true⟩⟩ ⟨[], "hi"⟩).exitCode = 0 :=
  success_path_diagnostics ⟨true, ⟨some 100, true⟩, ⟨some 200, true⟩⟩ ⟨[], "hi"⟩
    rfl (by decide) (by decide)

/-- C2 counterexample: the code does not implement the claimed
two-signal wait-until-ready step.  Concretely: (1) in a run whose
connect fails — so the Connected state is never reached — the combined
ready-or-broken future has already been requested, as the very first
transport call, and it is the only signal requested; (2) when the wait
on that single future times out, the outcome is unconditionally the
setup-timeout warning, with no failure signal consulted; (3) the
setup-failure warning arises instead when the combined future resolves
false within the bound; (4) the specification's two-signal procedure
yields SetupFailure after a ready timeout with the failure signal
resolved, an outcome the code's timeout branch never produces. -/
theorem ready_two_signals_counterexample :
    (runNewman ⟨false, ⟨none, false⟩, ⟨none, false⟩⟩ ⟨[], ""⟩).calls =
      ["getReadyOrBrokenFuture", "setCredentials", "connect"]
    ∧ WaitForClientReadyToSend ⟨none, false⟩ =
        (false, [⟨Level.warning, "Timeout waiting to set up to send the e-mail!"⟩])
    ∧ WaitForClientReadyToSend ⟨some 10, false⟩ =
        (false, [⟨Level.warning, "There was a problem setting up to send the e-mail!"⟩])
    ∧ specAwaitReadyTwoSignals ⟨none, true⟩ ⟨some 10, true⟩ = ReadyOutcome.SetupFailure := by
  refine ⟨?_, by decide, by decide, by decide⟩
  rw [runNewman_connect_false rfl]

/-- C2 amended: the orchestrator requests a single combined
ready-or-broken pending signal from the transport, and does so before
initiating the connect (not after reaching Connected); the
wait-until-ready step waits up to 5000 milliseconds for that one
signal: resolution to false within the bound yields Failed
(SetupFailure) with its warning diagnostic, and no resolution within
the bound yields Failed(SetupTimeout) with a timeout warning
diagnostic; no separate failure signal exists or is checked. -/
theorem ready_wait_amended (b : TransportBehavior) (e : Email) :
    waitBoundMs = 5000
    ∧ (runNewman b e).calls.take 3 = ["getReadyOrBrokenFuture", "setCredentials", "connect"]
    ∧ (b.connectResult = true → AwaitFuture b.readyOrBroken = WaitResult.Failure →
        (runNewman b e).exitCode = 1
        ∧ warningsOf (runNewman b e) =
            [⟨Level.warning, "There was a problem setting up to send the e-mail!"⟩]
        ∧ (runNewman b e).sendCall = none)
    ∧ (b.connectResult = true → AwaitFuture b.readyOrBroken = WaitResult.Incomplete →
        (runNewman b e).exitCode = 1
        ∧ warningsOf (runNewman b e) =
            [⟨Level.warning, "Timeout waiting to set up to send the e-mail!"⟩]
        ∧ (runNewman b e).sendCall = none) := by
  refine ⟨rfl, ?_, ?_, ?_⟩
  · rcases hc : b.connectResult with _ | _
    · rw [runNewman_connect_false hc]
      rfl
    · rcases hr : AwaitFuture b.readyOrBroken with _ | _ | _
      · rcases hsnd : AwaitFuture b.sendCompleted with _ | _ | _
        · rw [runNewman_send_success hc hr hsnd]
          rfl
        · rw [runNewman_send_failure hc hr hsnd]
          rfl
        · rw [runNewman_send_incomplete hc hr hsnd]
          rfl
      · rw [runNewman_ready_failure hc hr]
        rfl
      · rw [runNewman_ready_incomplete hc hr]
        rfl
  · intro hc hr
    rw [runNewman_ready_failure hc hr]
    exact ⟨rfl, rfl, rfl⟩
  · intro hc hr
    rw [runNewman_ready_incomplete hc hr]
    exact ⟨rfl, rfl, rfl⟩

/-- C2 amended witness: a broken setup (combined future resolves false
at once) and a silent setup (combined future never resolves). -/
theorem ready_wait_amended_witness :
    ((runNewman ⟨true, ⟨some 0, false⟩, ⟨none, false⟩⟩ ⟨[], ""⟩).exitCode = 1
      ∧ warningsOf (runNewman ⟨true, ⟨some 0, false⟩, ⟨none, false⟩⟩ ⟨[], ""⟩) =
          [⟨Level.warning, "There was a problem setting up to send the e-mail!"⟩]
      ∧ (runNewman ⟨true, ⟨some 0, false⟩, ⟨none, false⟩⟩ ⟨[], ""⟩).sendCall = none)
    ∧ ((runNewman ⟨true, ⟨none, false⟩, ⟨none, false⟩⟩ ⟨[], ""⟩).exitCode = 1
      ∧ warningsOf (runNewman ⟨true, ⟨none, false⟩, ⟨none, false⟩⟩ ⟨[], ""⟩) =
          [⟨Level.warning, "Timeout waiting to set up to send the e-mail!"⟩]
      ∧ (runNewman ⟨true, ⟨none, false⟩, ⟨none, false⟩⟩ ⟨[], ""⟩).sendCall = none)
    ∧ (runNewman ⟨true, ⟨some 0, false⟩, ⟨none, false⟩⟩ ⟨[], ""⟩).calls.take 3 =
        ["getReadyOrBrokenFuture", "setCredentials", "connect"] :=
  ⟨(ready_wait_amended ⟨true, ⟨some 0, false⟩, ⟨none, false⟩⟩ ⟨[], ""⟩).2.2.1
      rfl (by decide),
   (ready_wait_amended ⟨true, ⟨none, false⟩, ⟨none, false⟩⟩ ⟨[], ""⟩).2.2.2
      rfl (by decide),
   (ready_wait_amended ⟨true, ⟨some 0, false⟩, ⟨none, false⟩⟩ ⟨[], ""⟩).2.1⟩

/-! ## Lemmas about the reader loop -/

/-- Once `headersComplete` is set, feeding one more line only appends
the normalized line to the body. -/
theorem feedLine_of_complete {H : Type} (parse : H → List Char → H × Nat × ParseState)
    {s : ReaderState H} (line : List Char) (hs : s.headersComplete = true) :
    feedLine parse s line = { s with body := s.body ++ lineWithNewLine line } := by
  simp [feedLine, hs]

/-- Once `headersComplete` is set, the whole remaining loop appends the
normalized lines to the body, touching nothing else. -/
theorem readEmailLoop_complete {H : Type} (parse : H → List Char → H × Nat × ParseState)
    (lines : List (List Char)) :
    ∀ (s : ReaderState H), s.headersComplete = true →
      readEmailLoop parse s lines =
        { s with body := s.body ++ (lines.map lineWithNewLine).flatten } := by
  induction lines with
  | nil =>
      intro s hs
      simp [readEmailLoop]
  | cons l ls ih =>
      intro s hs
      show readEmailLoop parse (feedLine parse s l) ls = _
      have hstep := ih { s with body := s.body ++ lineWithNewLine l } hs
      rw [feedLine_of_complete parse l hs, hstep]
      simp [List.map_cons, List.flatten_cons, List.append_assoc]

/-- On the call that completes the headers, the body is initialized to
the unconsumed remainder of the accumulated buffer. -/
theorem feedLine_completing {H : Type} (parse : H → List Char → H × Nat × ParseState)
    (s : ReaderState H) (line : List Char)
    (h1 : s.headersComplete = false)
    (h2 : (feedLine parse s line).headersComplete = true) :
    (feedLine parse s line).body =
      (s.buffer ++ lineWithNewLine line).drop
        (parse s.headers (s.buffer ++ lineWithNewLine line)).2.1 := by
  rcases hp : parse s.headers (s.buffer ++ lineWithNewLine line) with ⟨h', c', r'⟩
  by_cases hr : r' = ParseState.Complete
  · subst hr
    simp only [feedLine, h1, Bool.false_eq_true, if_false, hp]
    simp only [reduceCtorEq, ite_false, ite_true, if_pos]
    split
    · rename_i hlen
      rw [hlen, List.drop_length]
    · rfl
  · simp only [feedLine, h1, Bool.false_eq_true, if_false, hp, if_neg hr] at h2

/-- C3: once the header parser's state reaches Complete, every
subsequently fed line is appended verbatim, byte-for-byte, to the body
and never interpreted as a header (the parser state is untouched), and
the unconsumed remainder of the buffer from the call that produced
Complete becomes the initial content of the body. -/
theorem body_after_complete {H : Type} (parse : H → List Char → H × Nat × ParseState)
    (s : ReaderState H) (lines : List (List Char)) (line : List Char) :
    (s.headersComplete = true →
        (readEmailLoop parse s lines).body = s.body ++ (lines.map lineWithNewLine).flatten
        ∧ (readEmailLoop parse s lines).headers = s.headers
        ∧ (readEmailLoop parse s lines).headersComplete = true)
    ∧ (s.headersComplete = false →
        (feedLine parse s line).headersComplete = true →
        (feedLine parse s line).body =
          (s.buffer ++ lineWithNewLine line).drop
            (parse s.headers (s.buffer ++ lineWithNewLine line)).2.1) := by
  constructor
  · intro hs
    rw [readEmailLoop_complete parse lines s hs]
    exact ⟨rfl, rfl, hs⟩
  · intro h1 h2
    exact feedLine_completing parse s line h1 h2

/-- C3 witness: after completion a fed line lands in the body verbatim
with the parser state unchanged, and a completing call whose buffer
holds bytes beyond the terminator starts the body at the unconsumed
remainder. -/
theorem body_after_complete_witness :
    ((readEmailLoop modelParse ⟨[['A']], ['x'], [], true⟩ [['a']]).body
        = ['x'] ++ ([['a']].map lineWithNewLine).flatten
      ∧ (readEmailLoop modelParse ⟨[['A']], ['x'], [], true⟩ [['a']]).headers = [['A']]
      ∧ (readEmailLoop modelParse ⟨[['A']], ['x'], [], true⟩ [['a']]).headersComplete = true)
    ∧ (feedLine modelParse ⟨[], [], ['\r', '\n', 'Z'], false⟩ []).body =
        (['\r', '\n', 'Z'] ++ lineWithNewLine []).drop
          (modelParse [] (['\r', '\n', 'Z'] ++ lineWithNewLine [])).2.1 :=
  ⟨(body_after_complete modelParse ⟨[['A']], ['x'], [], true⟩ [['a']] []).1 rfl,
   (body_after_complete modelParse ⟨[], [], ['\r', '\n', 'Z'], false⟩ [] []).2
      rfl (by decide)⟩

/-- No line delivered by `getLines` contains a line-feed character:
`std::getline` always stops at (and discards) the delimiter. -/
theorem getLines_no_newline :
    ∀ {input l : List Char}, l ∈ getLines input → '\n' ∉ l := by
  intro input
  induction input with
  | nil =>
      intro l hl
      simp [getLines] at hl
  | cons c rest ih =>
      intro l hl
      simp only [getLines] at hl
      by_cases hc : c = '\n'
      · rw [if_pos hc] at hl
        rcases List.mem_cons.mp hl with rfl | hl
        · simp
        · match rest, hl with
          | _ :: _, hl => exact ih hl
      · rw [if_neg hc] at hl
        cases hgl : getLines rest with
        | nil =>
            rw [hgl] at hl
            have : l = [c] := by simpa using hl
            subst this
            simp [Ne.symm hc]
        | cons l0 ls =>
            rw [hgl] at hl
            rcases List.mem_cons.mp hl with rfl | hl
            · intro hmem
              rcases List.mem_cons.mp hmem with h | h
              · exact hc h.symm
              · exact ih (hgl ▸ List.mem_cons_self l0 ls) h
            · exact ih (hgl ▸ List.mem_cons_of_mem l0 hl)

/-- C7: every source line read from the input file, whatever its
original terminator, is handed on (to the header parser or the body)
ending in exactly one CRLF sequence: the normalized line ends with CRLF
and does not end with two CRLF sequences. -/
theorem line_normalized_to_crlf (input line : List Char)
    (hmem : line ∈ getLines input) :
    '\n' ∉ line
    ∧ crlf.isSuffixOf (lineWithNewLine line) = true
    ∧ (crlf ++ crlf).isSuffixOf (lineWithNewLine line) = false := by
  have hnl : '\n' ∉ line := getLines_no_newline hmem
  refine ⟨hnl, ?_, ?_⟩
  · exact List.isSuffixOf_iff_suffix.mpr ⟨line, rfl⟩
  · rw [Bool.eq_false_iff]
    intro hsuf
    rcases List.isSuffixOf_iff_suffix.mp hsuf with ⟨t, ht⟩
    have ht' : (t ++ crlf) ++ crlf = line ++ crlf := by
      simpa [List.append_assoc] using ht
    have hline : t ++ crlf = line := List.append_cancel_right ht'
    have : '\n' ∈ line := by
      rw [← hline]
      simp [crlf]
    exact hnl this

/-- C7 witness: the file "ab\r\ncd" (CRLF line ending) yields the line
"ab\r", whose normalized form ends in exactly one CRLF. -/
theorem line_normalized_to_crlf_witness :
    '\n' ∉ ['a', 'b', '\r']
    ∧ crlf.isSuffixOf (lineWithNewLine ['a', 'b', '\r']) = true
    ∧ (crlf ++ crlf).isSuffixOf (lineWithNewLine ['a', 'b', '\r']) = false :=
  line_normalized_to_crlf ['a', 'b', '\r', '\n', 'c', 'd'] ['a', 'b', '\r'] (by decide)

end Newman
